import Mathlib

/-!
Shallow embedding of the `oyamo/watermark-gen` image-watermarking program
(Go).  The embedded functions follow the source files:

* `src/unnamed/part_000` — the main program: `ReadImage`, `SaveImage`,
  `ResizeImage`, `Blend`, `AddWatermarkImage`, `main`;
* `src/main.go` and `src/unnamed/part_001` — an earlier variant whose
  `ReadImage` downcasts the decoded `image.Image` to `*image.NRGBA`.

Modelling conventions:

* Machine integers are `Nat`/`Int`.  Go's `uint8(x)` truncation of a
  `uint32` is `x % 256`; `uint16` truncation of a nonnegative `float64`
  is `floor`, i.e. `Nat` division when the value is an exact rational.
* `float64` arithmetic in `ResizeImage` and `Blend` is modelled as exact
  real arithmetic followed by `floor` (the quantities involved are small
  integer ratios, where IEEE double rounding coincides with the exact
  value for all realistic image dimensions and for all 16-bit channel
  values).
* File I/O and the external codecs are modelled by an environment of
  functions from paths to outcomes; the file-system effect of
  `os.Create` is recorded in an explicit trace.
-/

namespace WatermarkGen

/-- A pixel of Go's `image.NRGBA`: four 8-bit straight-alpha channels,
stored as natural numbers. -/
structure NRGBAColor where
  r : Nat
  g : Nat
  b : Nat
  a : Nat
deriving DecidableEq

/-- The zero value `color.NRGBA{}`, returned by `NRGBA.At` out of bounds. -/
def NRGBAColor.zero : NRGBAColor := ⟨0, 0, 0, 0⟩

/-- Well-formedness of a stored pixel: every channel fits in 8 bits. -/
def NRGBAColor.WF (c : NRGBAColor) : Prop :=
  c.r < 256 ∧ c.g < 256 ∧ c.b < 256 ∧ c.a < 256

instance (c : NRGBAColor) : Decidable c.WF := by
  unfold NRGBAColor.WF; infer_instance

/-- The 16-bit alpha-premultiplied quadruple produced by Go's
`color.Color.RGBA()` method. -/
structure RGBAQuad where
  r : Nat
  g : Nat
  b : Nat
  a : Nat
deriving DecidableEq

/-- `color.NRGBA.RGBA()`: each channel is widened (`r |= r << 8`, i.e.
multiplied by 0x101 = 257), multiplied by the alpha and divided by 0xff;
the alpha itself is only widened. -/
def NRGBAColor.rgba (c : NRGBAColor) : RGBAQuad :=
  ⟨c.r * 257 * c.a / 255, c.g * 257 * c.a / 255, c.b * 257 * c.a / 255, c.a * 257⟩

/-- The dynamic `color.Color` values that occur in this program: the
`color.NRGBA` pixels read from buffers, and the `color.RGBA64` values
built by `Blend`. -/
inductive GoColor where
  | nrgba (c : NRGBAColor)
  | rgba64 (q : RGBAQuad)
deriving DecidableEq

/-- The `RGBA()` method of the two color kinds: `color.RGBA64.RGBA()`
returns the stored 16-bit channels unchanged. -/
def GoColor.rgba : GoColor → RGBAQuad
  | .nrgba c => c.rgba
  | .rgba64 q => q

/-- `Blend` from `src/unnamed/part_000` lines 112–134 (identical in
`part_001`).  The two early returns hand back the argument `color.Color`
value itself.  In the general branch, `alpha := wa / 0xffff` and each
channel is `uint16(wr*alpha + mr*(1-alpha))`; with exact real arithmetic
this truncated value is `(wr*wa + mr*(0xffff-wa)) / 0xffff` in `Nat`
division.  The result alpha is `uint16(math.Max(wa, ma))`. -/
def Blend (watermark main : GoColor) : GoColor :=
  let w := watermark.rgba
  let m := main.rgba
  if w.a = 0 then main
  else if w.a = 0xffff then watermark
  else
    .rgba64 ⟨(w.r * w.a + m.r * (0xffff - w.a)) / 0xffff,
             (w.g * w.a + m.g * (0xffff - w.a)) / 0xffff,
             (w.b * w.a + m.b * (0xffff - w.a)) / 0xffff,
             max w.a m.a⟩

/-- A decoded image, Go's `image.NRGBA` with its rectangle anchored at
(0, 0): explicit width and height and a row-major pixel list (the `Pix`
byte slice grouped in quadruples, `Stride = 4*width`). -/
structure PixelBuffer where
  width : Nat
  height : Nat
  pix : List NRGBAColor
deriving DecidableEq

/-- `image.NRGBA.At`: the zero color outside the rectangle, otherwise
the stored pixel at row-major index `y*width + x`. -/
def PixelBuffer.atPix (b : PixelBuffer) (x y : Int) : NRGBAColor :=
  if 0 ≤ x ∧ x < (b.width : Int) ∧ 0 ≤ y ∧ y < (b.height : Int) then
    b.pix.getD (y.toNat * b.width + x.toNat) NRGBAColor.zero
  else NRGBAColor.zero

/-- `At` as a `color.Color` value (an `*image.NRGBA` yields `color.NRGBA`). -/
def PixelBuffer.At (b : PixelBuffer) (x y : Int) : GoColor :=
  .nrgba (b.atPix x y)

/-- Error outcomes of the program, one per distinct Go error value. -/
inductive Err where
  /-- an error returned by `os.Open` or `os.Create` -/
  | ioError
  /-- the error `"... has to be of type png, jpeg or gif"` -/
  | unsupportedFormat
  /-- an error returned by `jpeg.Decode` / `png.Decode` / `gif.Decode` -/
  | decodeError
  /-- the error `"image is nil"` -/
  | nilImage
  /-- the error `"dimensions out of bounds"` -/
  | outOfBounds
  /-- an error returned by `jpeg.Encode` / `png.Encode` / `gif.Encode` -/
  | encodeError
deriving DecidableEq

/-- The per-pixel sampling step of `ResizeImage` (part_000 lines
102–105): `colorAt.RGBA()` produces the 16-bit premultiplied quadruple,
and each component is truncated with `uint8(...)`, i.e. reduced modulo
256 (the low byte, not the high one). -/
def resizeSample (c : NRGBAColor) : NRGBAColor :=
  let q := c.rgba
  ⟨q.r % 256, q.g % 256, q.b % 256, q.a % 256⟩

/-- `ResizeImage` from part_000 lines 90–110.  `image.Rect(0,0,w,h)`
swaps coordinates when `w` or `h` is negative, so the new bounds have
`Dx = |w|`, `Dy = |h|`.  The nested loops write each destination index
`j*Dx + i` exactly once via `SetNRGBA`; the buffer is given directly by
its final contents.  The coordinate formula
`int(float64(i) * float64(srcW) / float64(Dx))` is floor of an exact
ratio, i.e. `Nat` division; it is evaluated only inside the loop body,
hence never with a zero divisor. -/
def resizeBuf (src : PixelBuffer) (height width : Int) : PixelBuffer :=
  { width := width.natAbs, height := height.natAbs,
    pix := (List.range (width.natAbs * height.natAbs)).map (fun k =>
      resizeSample (src.atPix ((k % width.natAbs) * src.width / width.natAbs : Nat)
        ((k / width.natAbs) * src.height / height.natAbs : Nat))) }

def ResizeImage (img : Option PixelBuffer) (height width : Int) :
    Except Err PixelBuffer :=
  match img with
  | none => .error .nilImage
  | some src => .ok (resizeBuf src height width)

/-- `color.NRGBAModel` conversion, applied by `image.NRGBA.Set` to the
incoming color: an `NRGBA` value is stored as is; any other color is
read through `RGBA()` and un-premultiplied, each channel stored as
`uint8(x >> 8)`. -/
def nrgbaModel (c : GoColor) : NRGBAColor :=
  match c with
  | .nrgba c0 => c0
  | .rgba64 q =>
    if q.a = 0xffff then ⟨q.r / 256 % 256, q.g / 256 % 256, q.b / 256 % 256, 0xff⟩
    else if q.a = 0 then ⟨0, 0, 0, 0⟩
    else ⟨q.r * 0xffff / q.a / 256 % 256, q.g * 0xffff / q.a / 256 % 256,
          q.b * 0xffff / q.a / 256 % 256, q.a / 256 % 256⟩

/-- `image.NRGBA.Set`: a silent no-op outside the rectangle, otherwise
the converted color replaces the pixel at row-major index `y*width+x`. -/
def PixelBuffer.set (b : PixelBuffer) (x y : Int) (c : GoColor) : PixelBuffer :=
  if 0 ≤ x ∧ x < (b.width : Int) ∧ 0 ≤ y ∧ y < (b.height : Int) then
    { b with pix := b.pix.set (y.toNat * b.width + x.toNat) (nrgbaModel c) }
  else b

/-- Linearization of the two nested composite loops of part_000 lines
183–190 (outer `i` over the overlay width, inner `j` over the overlay
height): iteration `k` handles local overlay coordinates
`(k / h, k % h)`.  Each destination pixel is visited exactly once. -/
def loopCoords (w h : Nat) : List (Nat × Nat) :=
  (List.range (w * h)).map (fun k => (k / h, k % h))

/-- The composite loop of `AddWatermarkImage` (part_000 lines 183–190):
for each overlay coordinate `(u, v)` it blends the overlay pixel with
the base pixel read from the original base image and writes the result
at `(x+u, y+v)`.  (Reads go to `mainImg`, writes to `newImg`; when the
two alias, each location is read before its unique write, so reading
from the original base is equivalent.)  Called only after the bounds
validation, so `x, y ≥ 0` are taken as `Nat`. -/
def composite (base overlay : PixelBuffer) (x y : Nat) : PixelBuffer :=
  (loopCoords overlay.width overlay.height).foldl
    (fun acc uv =>
      acc.set (↑(x + uv.1)) (↑(y + uv.2))
        (Blend (overlay.At ↑uv.1 ↑uv.2) (base.At ↑(x + uv.1) ↑(y + uv.2)))) base

/-- Helper for `filepath.Ext`: the input is the path reversed; walk
toward the front, accumulating the scanned suffix, until the last dot
(the extension starts there), a path separator, or the start of the
string (no extension). -/
def extFromRev : List Char → List Char → List Char
  | [], _ => []
  | ch :: rest, acc =>
    if ch = '/' then []
    else if ch = '.' then ch :: acc
    else extFromRev rest (ch :: acc)

/-- `filepath.Ext`: the suffix of the last element of the path starting
at its final dot, empty when there is none. -/
def fileExt (path : String) : String :=
  ⟨extFromRev path.toList.reverse []⟩

/-- The extensions accepted by the decode/encode switches. -/
def supportedExt (path : String) : Prop :=
  fileExt path = ".jpg" ∨ fileExt path = ".jpeg" ∨
    fileExt path = ".png" ∨ fileExt path = ".gif"

instance (path : String) : Decidable (supportedExt path) := by
  unfold supportedExt
  infer_instance

/-- The external collaborators of the pipeline, as functions of the file
path: whether `os.Open`/`os.Create` succeed, the outcome of the selected
codec's decode on the file's bytes (`none` = malformed), and whether the
codec's encode succeeds. -/
structure Env where
  openOk : String → Bool
  decodeResult : String → Option PixelBuffer
  createOk : String → Bool
  encodeOk : String → Bool

/-- `ReadImage` from part_000 lines 19–55: open the file, reject an
empty or unrecognized extension, otherwise run the selected codec.  This
variant returns the decoded image (modelled as a `PixelBuffer`) without
any downcast. -/
def ReadImage (env : Env) (path : String) : Except Err PixelBuffer :=
  if env.openOk path = true then
    if fileExt path = "" then .error .unsupportedFormat
    else if supportedExt path then
      match env.decodeResult path with
      | some img => .ok img
      | none => .error .decodeError
    else .error .unsupportedFormat
  else .error .ioError

/-- The file-system effect of one `SaveImage` call: whether `os.Create`
created (or truncated) the file at the output path, and the encoded
image content if an encode completed. -/
structure SaveTrace where
  created : Bool
  written : Option PixelBuffer
deriving DecidableEq

/-- `SaveImage` from part_000 lines 58–88.  Note the order: `os.Create`
runs FIRST; the extension is validated and the encoder selected only
after the output file has already been created/truncated. -/
def SaveImage (env : Env) (img : PixelBuffer) (path : String) :
    SaveTrace × Option Err :=
  if env.createOk path = true then
    if fileExt path = "" then (⟨true, none⟩, some .unsupportedFormat)
    else if supportedExt path then
      if env.encodeOk path = true then (⟨true, some img⟩, none)
      else (⟨true, none⟩, some .encodeError)
    else (⟨true, none⟩, some .unsupportedFormat)
  else (⟨false, none⟩, some .ioError)

/-- `AddWatermarkImage` from part_000 lines 136–198: decode both
images, resize the watermark when it exceeds the bound box in either
axis, validate the offset, composite, save.  The Go code converts a
non-NRGBA base to `*image.NRGBA` by copying before mutation; decoded
images are already `PixelBuffer` values here, and `composite` is pure,
so that copy is the identity.  The pair returned is the file-system
trace of the save stage and the error result (`none` = success). -/
def watermarkStages (env : Env) (outPath : String) (x y height width : Int)
    (mainImg wm0 : PixelBuffer) : SaveTrace × Option Err :=
  match (if width < (wm0.width : Int) ∨ height < (wm0.height : Int) then
           ResizeImage (some wm0) height width
         else .ok wm0) with
  | .error e => (⟨false, none⟩, some e)
  | .ok wm =>
    if x < 0 ∨ y < 0 then (⟨false, none⟩, some .outOfBounds)
    else if (mainImg.width : Int) < x ∨ (mainImg.height : Int) < y then
      (⟨false, none⟩, some .outOfBounds)
    else SaveImage env (composite mainImg wm x.toNat y.toNat) outPath

def AddWatermarkImage (env : Env) (mainPath wmPath outPath : String)
    (x y height width : Int) : SaveTrace × Option Err :=
  match ReadImage env mainPath with
  | .error e => (⟨false, none⟩, some e)
  | .ok mainImg =>
    match ReadImage env wmPath with
    | .error e => (⟨false, none⟩, some e)
    | .ok wm0 => watermarkStages env outPath x y height width mainImg wm0

/-- A save environment in which the save stage fully succeeds:
`os.Create` succeeds, the extension is a supported one, and the encoder
succeeds. -/
def saveEnvOk (env : Env) (path : String) : Prop :=
  env.createOk path = true ∧ env.encodeOk path = true ∧ supportedExt path

/-- A watermark-free 1x1 opaque test image. -/
def pix1 : PixelBuffer := ⟨1, 1, [⟨1, 2, 3, 255⟩]⟩

/-- An environment in which every file operation succeeds and every
decode yields `pix1`. -/
def envAllOk : Env := ⟨fun _ => true, fun _ => some pix1, fun _ => true, fun _ => true⟩

/-- The concrete Go image types a successful decode can produce:
`png.Decode` yields `*image.NRGBA` only for suitable color types;
`jpeg.Decode` yields `*image.YCbCr` (or gray/CMYK variants) and
`gif.Decode` always yields `*image.Paletted`. -/
inductive GoImage where
  | nrgbaImg (b : PixelBuffer)
  | ycbcrImg
  | palettedImg
  | rgbaImg
deriving DecidableEq

/-- Outcome of the downcasting `ReadImage`: a buffer, an error, or a
run-time panic from a failed type assertion. -/
inductive ReadOutcome where
  | ok (b : PixelBuffer)
  | err (e : Err)
  | panicked
deriving DecidableEq

/-- Environment for the downcasting `ReadImage`: open outcome and the
decoded dynamic image value (with its concrete Go type) per path. -/
structure EnvCast where
  openOk : String → Bool
  decodeGo : String → Option GoImage

/-- `ReadImage` from `src/main.go` lines 14–50 and
`src/unnamed/part_001` lines 17–53: identical to the part_000 version
except that the decoded `image.Image` interface value is downcast with
`imgI.(*image.NRGBA)`; when the dynamic type differs the assertion
panics. -/
def ReadImageCast (env : EnvCast) (path : String) : ReadOutcome :=
  if env.openOk path = true then
    if fileExt path = "" then .err .unsupportedFormat
    else if supportedExt path then
      match env.decodeGo path with
      | none => .err .decodeError
      | some (.nrgbaImg b) => .ok b
      | some _ => .panicked
    else .err .unsupportedFormat
  else .err .ioError

/-- An environment where the GIF codec successfully decodes the file
into the `*image.Paletted` frame `gif.Decode` always returns. -/
def envGif : EnvCast := ⟨fun _ => true, fun _ => some .palettedImg⟩

/-- The blended channel value is bounded below and above by the two
input channels: it is a floor of a convex combination with integer
endpoints. -/
theorem blendChannel_bounds (wc mc wa : Nat) (hwa : wa ≤ 0xffff) :
    min wc mc ≤ (wc * wa + mc * (0xffff - wa)) / 0xffff ∧
      (wc * wa + mc * (0xffff - wa)) / 0xffff ≤ max wc mc := by
  constructor
  · rw [Nat.le_div_iff_mul_le (by norm_num : 0 < 0xffff)]
    have h1 : min wc mc * wa ≤ wc * wa := Nat.mul_le_mul_right _ (Nat.min_le_left _ _)
    have h2 : min wc mc * (0xffff - wa) ≤ mc * (0xffff - wa) :=
      Nat.mul_le_mul_right _ (Nat.min_le_right _ _)
    calc min wc mc * 0xffff
        = min wc mc * wa + min wc mc * (0xffff - wa) := by
          rw [← Nat.mul_add]; congr 1; omega
      _ ≤ wc * wa + mc * (0xffff - wa) := Nat.add_le_add h1 h2
  · have h1 : wc * wa ≤ max wc mc * wa := Nat.mul_le_mul_right _ (Nat.le_max_left _ _)
    have h2 : mc * (0xffff - wa) ≤ max wc mc * (0xffff - wa) :=
      Nat.mul_le_mul_right _ (Nat.le_max_right _ _)
    calc (wc * wa + mc * (0xffff - wa)) / 0xffff
        ≤ (max wc mc * wa + max wc mc * (0xffff - wa)) / 0xffff :=
          Nat.div_le_div_right (Nat.add_le_add h1 h2)
      _ = max wc mc * 0xffff / 0xffff := by
          congr 1; rw [← Nat.mul_add]; congr 1; omega
      _ = max wc mc := Nat.mul_div_cancel _ (by norm_num)

/-- C2: `blendPixel(overlay, base)` returns exactly the base color value
when the overlay alpha is 0, and exactly the overlay color value when
the overlay alpha is the maximum 16-bit value 0xffff. -/
theorem C2_blend_extremes (w m : GoColor) :
    (w.rgba.a = 0 → Blend w m = m) ∧ (w.rgba.a = 0xffff → Blend w m = w) := by
  constructor
  · intro h
    simp [Blend, h]
  · intro h
    simp [Blend, h]

/-- Witness for C2 at concrete pixels: a fully transparent overlay
pixel (alpha 0) yields the base, a fully opaque one (alpha 255, i.e.
16-bit 0xffff) yields the overlay. -/
theorem C2_blend_extremes_witness :
    Blend (.nrgba ⟨5, 6, 7, 0⟩) (.nrgba ⟨1, 2, 3, 4⟩) = .nrgba ⟨1, 2, 3, 4⟩ ∧
      Blend (.nrgba ⟨5, 6, 7, 255⟩) (.nrgba ⟨1, 2, 3, 4⟩) = .nrgba ⟨5, 6, 7, 255⟩ :=
  ⟨(C2_blend_extremes (.nrgba ⟨5, 6, 7, 0⟩) (.nrgba ⟨1, 2, 3, 4⟩)).1 (by decide),
   (C2_blend_extremes (.nrgba ⟨5, 6, 7, 255⟩) (.nrgba ⟨1, 2, 3, 4⟩)).2 (by decide)⟩

/-- Equation for the general branch of `Blend`, when the overlay alpha
is neither 0 nor the maximum. -/
theorem Blend_mid (w m : GoColor) (h0 : w.rgba.a ≠ 0) (h1 : w.rgba.a ≠ 0xffff) :
    Blend w m =
      .rgba64 ⟨(w.rgba.r * w.rgba.a + m.rgba.r * (0xffff - w.rgba.a)) / 0xffff,
               (w.rgba.g * w.rgba.a + m.rgba.g * (0xffff - w.rgba.a)) / 0xffff,
               (w.rgba.b * w.rgba.a + m.rgba.b * (0xffff - w.rgba.a)) / 0xffff,
               max w.rgba.a m.rgba.a⟩ := by
  unfold Blend
  simp only [if_neg h0, if_neg h1]

/-- C6: for overlay alpha strictly between 0 and the maximum, the result
alpha of `Blend` is `max(overlayAlpha, baseAlpha)`, hence at least each
input alpha. -/
theorem C6_blend_alpha (w m : GoColor)
    (h0 : 0 < w.rgba.a) (h1 : w.rgba.a < 0xffff) :
    (Blend w m).rgba.a = max w.rgba.a m.rgba.a ∧
      w.rgba.a ≤ (Blend w m).rgba.a ∧ m.rgba.a ≤ (Blend w m).rgba.a := by
  have hne0 : w.rgba.a ≠ 0 := Nat.pos_iff_ne_zero.mp h0
  have hnemax : w.rgba.a ≠ 0xffff := Nat.ne_of_lt h1
  rw [Blend_mid w m hne0 hnemax]
  exact ⟨rfl, Nat.le_max_left _ _, Nat.le_max_right _ _⟩

/-- Witness for C6: overlay alpha 128 (16-bit 32896) is strictly between
the extremes; the result alpha is the larger of the two input alphas. -/
theorem C6_blend_alpha_witness :
    (Blend (.nrgba ⟨5, 6, 7, 128⟩) (.nrgba ⟨1, 2, 3, 200⟩)).rgba.a =
        max (GoColor.nrgba ⟨5, 6, 7, 128⟩).rgba.a (GoColor.nrgba ⟨1, 2, 3, 200⟩).rgba.a ∧
      (GoColor.nrgba ⟨5, 6, 7, 128⟩).rgba.a ≤
        (Blend (.nrgba ⟨5, 6, 7, 128⟩) (.nrgba ⟨1, 2, 3, 200⟩)).rgba.a ∧
      (GoColor.nrgba ⟨1, 2, 3, 200⟩).rgba.a ≤
        (Blend (.nrgba ⟨5, 6, 7, 128⟩) (.nrgba ⟨1, 2, 3, 200⟩)).rgba.a :=
  C6_blend_alpha (.nrgba ⟨5, 6, 7, 128⟩) (.nrgba ⟨1, 2, 3, 200⟩) (by decide) (by decide)

theorem resizeBuf_pix (src : PixelBuffer) (height width : Int) :
    (resizeBuf src height width).pix =
      (List.range (width.natAbs * height.natAbs)).map (fun k =>
        resizeSample (src.atPix ((k % width.natAbs) * src.width / width.natAbs : Nat)
          ((k / width.natAbs) * src.height / height.natAbs : Nat))) := rfl

/-- An 8-bit pixel with full alpha is reproduced exactly by the
widen-premultiply-truncate round trip of `resizeSample`. -/
theorem resizeSample_opaque (c : NRGBAColor) (hwf : c.WF) (ha : c.a = 255) :
    resizeSample c = c := by
  obtain ⟨r, g, b, a⟩ := c
  obtain ⟨hr, hg, hb, hA⟩ := hwf
  have hr' : r < 256 := hr
  have hg' : g < 256 := hg
  have hb' : b < 256 := hb
  have ha' : a = 255 := ha
  subst ha'
  show NRGBAColor.mk (r * 257 * 255 / 255 % 256) (g * 257 * 255 / 255 % 256)
    (b * 257 * 255 / 255 % 256) (255 * 257 % 256) = ⟨r, g, b, 255⟩
  rw [NRGBAColor.mk.injEq]
  exact ⟨by omega, by omega, by omega, by omega⟩

theorem PixelBuffer.set_width (b : PixelBuffer) (x y : Int) (c : GoColor) :
    (b.set x y c).width = b.width := by
  unfold PixelBuffer.set
  split <;> rfl

theorem PixelBuffer.set_height (b : PixelBuffer) (x y : Int) (c : GoColor) :
    (b.set x y c).height = b.height := by
  unfold PixelBuffer.set
  split <;> rfl

/-- Row-major indexing is injective on in-range column indices. -/
theorem rowMajor_inj (w a b c d : Nat) (hb : b < w) (hd : d < w)
    (h : a * w + b = c * w + d) : a = c ∧ b = d := by
  have hbv : (a * w + b) % w = b := by
    rw [Nat.add_comm, Nat.add_mul_mod_self_right, Nat.mod_eq_of_lt hb]
  have hdv : (c * w + d) % w = d := by
    rw [Nat.add_comm, Nat.add_mul_mod_self_right, Nat.mod_eq_of_lt hd]
  have hbd : b = d := by rw [← hbv, ← hdv, h]
  refine ⟨?_, hbd⟩
  have hw : 0 < w := Nat.pos_of_ne_zero (by omega)
  have : a * w = c * w := by omega
  exact Nat.eq_of_mul_eq_mul_right hw this

/-- A `Set` at one coordinate leaves `At` unchanged at any other
coordinate. -/
theorem PixelBuffer.atPix_set_ne (b : PixelBuffer) (sx sy : Int) (c : GoColor)
    (px py : Int) (h : ¬(sx = px ∧ sy = py)) :
    (b.set sx sy c).atPix px py = b.atPix px py := by
  unfold PixelBuffer.set
  split
  case isFalse => rfl
  case isTrue hin =>
    obtain ⟨hsx0, hsxw, hsy0, hsyh⟩ := hin
    unfold PixelBuffer.atPix
    simp only
    split
    case isFalse => rfl
    case isTrue hpin =>
      obtain ⟨hpx0, hpxw, hpy0, hpyh⟩ := hpin
      rw [List.getD_eq_getElem?_getD, List.getD_eq_getElem?_getD]
      rw [List.getElem?_set_ne]
      intro heq
      have hsxw' : sx.toNat < b.width := by omega
      have hpxw' : px.toNat < b.width := by omega
      obtain ⟨hy, hx⟩ := rowMajor_inj b.width sy.toNat sx.toNat py.toNat px.toNat
        hsxw' hpxw' heq
      exact h ⟨by omega, by omega⟩

/-- Folding `Set` over coordinates all different from `(px, py)` leaves
`At (px, py)` untouched. -/
theorem foldl_set_atPix_ne (g : Nat × Nat → GoColor) (x y px py : Nat)
    (l : List (Nat × Nat)) :
    ∀ acc : PixelBuffer,
      (∀ uv ∈ l, ¬(((x + uv.1 : Nat) : Int) = (px : Int) ∧ ((y + uv.2 : Nat) : Int) = (py : Int))) →
      (l.foldl (fun acc uv =>
          acc.set (↑(x + uv.1)) (↑(y + uv.2)) (g uv)) acc).atPix px py =
        acc.atPix px py := by
  induction l with
  | nil => intro acc _; rfl
  | cons hd tl ih =>
    intro acc hm
    rw [List.foldl_cons, ih _ (fun uv hu => hm uv (List.mem_cons_of_mem _ hu)),
      PixelBuffer.atPix_set_ne _ _ _ _ _ _ (hm hd (List.mem_cons_self _ _))]

/-- Coordinates produced by the composite loop lie inside the overlay. -/
theorem loopCoords_mem (w h : Nat) (uv : Nat × Nat) (hm : uv ∈ loopCoords w h) :
    uv.1 < w ∧ uv.2 < h := by
  unfold loopCoords at hm
  obtain ⟨k, hk, rfl⟩ := List.mem_map.mp hm
  rw [List.mem_range] at hk
  have hh : 0 < h := by
    rcases Nat.eq_zero_or_pos h with h0 | h0
    · subst h0; omega
    · exact h0
  refine ⟨?_, Nat.mod_lt _ hh⟩
  rw [Nat.div_lt_iff_lt_mul hh]
  exact hk

/-- C8: `composite` leaves every base pixel outside the overlay
footprint `[x, x+overlayWidth) x [y, y+overlayHeight)` unchanged. -/
theorem C8_composite_frame (base overlay : PixelBuffer) (x y px py : Nat)
    (hout : px < x ∨ x + overlay.width ≤ px ∨ py < y ∨ y + overlay.height ≤ py) :
    (composite base overlay x y).atPix px py = base.atPix px py := by
  unfold composite
  apply foldl_set_atPix_ne
  intro uv hu
  obtain ⟨hu1, hu2⟩ := loopCoords_mem _ _ _ hu
  intro heq
  obtain ⟨hex, hey⟩ := heq
  omega

/-- Witness for C8: a pixel strictly right of a 1x1 overlay placed at
the origin in a 2x2 base is unchanged by `composite`. -/
theorem C8_composite_frame_witness :
    (composite ⟨2, 2, [⟨1, 1, 1, 255⟩, ⟨2, 2, 2, 255⟩, ⟨3, 3, 3, 255⟩, ⟨4, 4, 4, 255⟩]⟩
        ⟨1, 1, [⟨9, 9, 9, 255⟩]⟩ 0 0).atPix 1 1 =
      (PixelBuffer.mk 2 2 [⟨1, 1, 1, 255⟩, ⟨2, 2, 2, 255⟩, ⟨3, 3, 3, 255⟩, ⟨4, 4, 4, 255⟩]).atPix 1 1 :=
  C8_composite_frame ⟨2, 2, [⟨1, 1, 1, 255⟩, ⟨2, 2, 2, 255⟩, ⟨3, 3, 3, 255⟩, ⟨4, 4, 4, 255⟩]⟩
    ⟨1, 1, [⟨9, 9, 9, 255⟩]⟩ 0 0 1 1 (by decide)

theorem supportedExt_ne_empty (path : String) (h : supportedExt path) :
    fileExt path ≠ "" := by
  rcases h with h | h | h | h <;> rw [h] <;> decide

theorem SaveImage_ok (env : Env) (img : PixelBuffer) (path : String)
    (h : saveEnvOk env path) :
    SaveImage env img path = (⟨true, some img⟩, none) := by
  obtain ⟨h1, h2, h3⟩ := h
  unfold SaveImage
  rw [if_pos h1, if_neg (supportedExt_ne_empty path h3), if_pos h3, if_pos h2]

theorem SaveImage_no_oob (env : Env) (img : PixelBuffer) (path : String) :
    (SaveImage env img path).2 ≠ some Err.outOfBounds := by
  unfold SaveImage
  split_ifs <;> simp

theorem SaveImage_created (env : Env) (img : PixelBuffer) (path : String) :
    (SaveImage env img path).1.created = env.createOk path := by
  unfold SaveImage
  split_ifs with h1 <;> simp [h1]

/-- Evaluation of `AddWatermarkImage` once both decodes succeed: the
resize stage cannot fail (its only error is a nil source), so the
pipeline reduces to the offset validation followed by the save stage. -/
theorem AddWatermarkImage_reads_ok (env : Env) (mainPath wmPath outPath : String)
    (x y height width : Int) (mainImg wm0 : PixelBuffer)
    (hm : ReadImage env mainPath = .ok mainImg)
    (hw : ReadImage env wmPath = .ok wm0) :
    AddWatermarkImage env mainPath wmPath outPath x y height width =
      (if x < 0 ∨ y < 0 then (⟨false, none⟩, some Err.outOfBounds)
       else if (mainImg.width : Int) < x ∨ (mainImg.height : Int) < y then
         (⟨false, none⟩, some Err.outOfBounds)
       else SaveImage env (composite mainImg
         (if width < (wm0.width : Int) ∨ height < (wm0.height : Int) then
            resizeBuf wm0 height width
          else wm0) x.toNat y.toNat) outPath) := by
  have h0 : AddWatermarkImage env mainPath wmPath outPath x y height width =
      watermarkStages env outPath x y height width mainImg wm0 := by
    unfold AddWatermarkImage
    rw [hm, hw]
  rw [h0]
  unfold watermarkStages
  by_cases hres : width < (wm0.width : Int) ∨ height < (wm0.height : Int)
  · rw [if_pos hres, if_pos hres]
    rfl
  · rw [if_neg hres, if_neg hres]

/-- C4: once both images decode, `AddWatermarkImage` fails with the
out-of-bounds error exactly when `x < 0`, `y < 0`, `x > baseWidth` or
`y > baseHeight`; the overlay's extent plays no role, and whenever the
offset passes this origin check (including `x = baseWidth` or
`y = baseHeight` exactly) the run succeeds provided the save stage's
environment cooperates. -/
theorem C4_offset_validation (env : Env) (mainPath wmPath outPath : String)
    (x y height width : Int) (mainImg wm0 : PixelBuffer)
    (hm : ReadImage env mainPath = .ok mainImg)
    (hw : ReadImage env wmPath = .ok wm0) :
    ((AddWatermarkImage env mainPath wmPath outPath x y height width).2 =
        some Err.outOfBounds ↔
      (x < 0 ∨ y < 0 ∨ (mainImg.width : Int) < x ∨ (mainImg.height : Int) < y)) ∧
    (¬(x < 0 ∨ y < 0 ∨ (mainImg.width : Int) < x ∨ (mainImg.height : Int) < y) →
      saveEnvOk env outPath →
      (AddWatermarkImage env mainPath wmPath outPath x y height width).2 = none) := by
  rw [AddWatermarkImage_reads_ok env mainPath wmPath outPath x y height width
    mainImg wm0 hm hw]
  by_cases h1 : x < 0 ∨ y < 0
  · rw [if_pos h1]
    exact ⟨iff_of_true rfl (by tauto), fun hnv _ => absurd (by tauto) hnv⟩
  · rw [if_neg h1]
    by_cases h2 : (mainImg.width : Int) < x ∨ (mainImg.height : Int) < y
    · rw [if_pos h2]
      exact ⟨iff_of_true rfl (by tauto), fun hnv _ => absurd (by tauto) hnv⟩
    · rw [if_neg h2]
      constructor
      · constructor
        · intro hoob
          exact absurd hoob (SaveImage_no_oob _ _ _)
        · intro hv
          rcases hv with h | h | h | h
          · exact absurd (Or.inl h) h1
          · exact absurd (Or.inr h) h1
          · exact absurd (Or.inl h) h2
          · exact absurd (Or.inr h) h2
      · intro _ hsave
        rw [SaveImage_ok env _ outPath hsave]

/-- Witness for C4 at the boundary: a 1x1 watermark placed at
`x = baseWidth = 2`, `y = 0` on a 2x2 base passes validation and the
pipeline succeeds. -/
theorem C4_offset_validation_witness :
    ((AddWatermarkImage (Env.mk (fun _ => true)
          (fun p => if p = "in.png" then some ⟨2, 2,
            [⟨1, 1, 1, 255⟩, ⟨2, 2, 2, 255⟩, ⟨3, 3, 3, 255⟩, ⟨4, 4, 4, 255⟩]⟩
           else some ⟨1, 1, [⟨9, 9, 9, 255⟩]⟩)
          (fun _ => true) (fun _ => true))
        "in.png" "wm.png" "out.png" 2 0 5 5).2 = some Err.outOfBounds ↔
      ((2 : Int) < 0 ∨ (0 : Int) < 0 ∨ ((2 : Nat) : Int) < 2 ∨ ((2 : Nat) : Int) < 0)) ∧
    (¬((2 : Int) < 0 ∨ (0 : Int) < 0 ∨ ((2 : Nat) : Int) < 2 ∨ ((2 : Nat) : Int) < 0) →
      saveEnvOk (Env.mk (fun _ => true)
          (fun p => if p = "in.png" then some ⟨2, 2,
            [⟨1, 1, 1, 255⟩, ⟨2, 2, 2, 255⟩, ⟨3, 3, 3, 255⟩, ⟨4, 4, 4, 255⟩]⟩
           else some ⟨1, 1, [⟨9, 9, 9, 255⟩]⟩)
          (fun _ => true) (fun _ => true)) "out.png" →
      (AddWatermarkImage (Env.mk (fun _ => true)
          (fun p => if p = "in.png" then some ⟨2, 2,
            [⟨1, 1, 1, 255⟩, ⟨2, 2, 2, 255⟩, ⟨3, 3, 3, 255⟩, ⟨4, 4, 4, 255⟩]⟩
           else some ⟨1, 1, [⟨9, 9, 9, 255⟩]⟩)
          (fun _ => true) (fun _ => true))
        "in.png" "wm.png" "out.png" 2 0 5 5).2 = none) :=
  C4_offset_validation _ "in.png" "wm.png" "out.png" 2 0 5 5
    ⟨2, 2, [⟨1, 1, 1, 255⟩, ⟨2, 2, 2, 255⟩, ⟨3, 3, 3, 255⟩, ⟨4, 4, 4, 255⟩]⟩
    ⟨1, 1, [⟨9, 9, 9, 255⟩]⟩ rfl rfl

/-- Counterexample to C3 as stated: with every stage up to and
including the composite succeeding but an unsupported output extension
(`out.bmp`), `AddWatermarkImage` fails — yet the output file has
already been created (truncated) by `os.Create`, which `SaveImage` runs
before validating the extension. -/
theorem C3_counterexample :
    (AddWatermarkImage envAllOk "in.png" "wm.png" "out.bmp" 0 0 0 0).2 ≠ none ∧
      (AddWatermarkImage envAllOk "in.png" "wm.png" "out.bmp" 0 0 0 0).1.created = true := by
  constructor
  · decide
  · decide

/-- C3 (amended): the output file is created exactly when every stage
before the save stage (decode of both images, the infallible resize,
and the offset validation) has succeeded and `os.Create` itself
succeeds — independently of whether the output extension is supported
or the encode succeeds, so an encode-stage failure can leave behind an
already-created (empty) output file. -/
theorem C3_created_iff (env : Env) (mainPath wmPath outPath : String)
    (x y height width : Int) :
    (AddWatermarkImage env mainPath wmPath outPath x y height width).1.created = true ↔
      ∃ mainImg wm0, ReadImage env mainPath = .ok mainImg ∧
        ReadImage env wmPath = .ok wm0 ∧
        ¬(x < 0 ∨ y < 0 ∨ (mainImg.width : Int) < x ∨ (mainImg.height : Int) < y) ∧
        env.createOk outPath = true := by
  rcases hm : ReadImage env mainPath with e | mainImg
  · have he : AddWatermarkImage env mainPath wmPath outPath x y height width =
        (⟨false, none⟩, some e) := by
      unfold AddWatermarkImage
      rw [hm]
    rw [he]
    constructor
    · intro hf
      exact Bool.noConfusion hf
    · rintro ⟨mi, w0, hm', hw', hv, hc⟩
      cases hm'
  · rcases hw : ReadImage env wmPath with e | wm0
    · have he : AddWatermarkImage env mainPath wmPath outPath x y height width =
          (⟨false, none⟩, some e) := by
        unfold AddWatermarkImage
        rw [hm, hw]
      rw [he]
      constructor
      · intro hf
        exact Bool.noConfusion hf
      · rintro ⟨mi, w0, hm', hw', hv, hc⟩
        cases hw'
    · rw [AddWatermarkImage_reads_ok env mainPath wmPath outPath x y height width
        mainImg wm0 hm hw]
      by_cases h1 : x < 0 ∨ y < 0
      · rw [if_pos h1]
        constructor
        · intro hf
          exact Bool.noConfusion hf
        · rintro ⟨mi, w0, hm', hw', hv, hc⟩
          exact absurd (by tauto) hv
      · rw [if_neg h1]
        by_cases h2 : (mainImg.width : Int) < x ∨ (mainImg.height : Int) < y
        · rw [if_pos h2]
          constructor
          · intro hf
            exact Bool.noConfusion hf
          · rintro ⟨mi, w0, hm', hw', hv, hc⟩
            injection hm' with heq
            subst heq
            exact absurd (by tauto) hv
        · rw [if_neg h2, SaveImage_created]
          constructor
          · intro hc
            refine ⟨mainImg, wm0, rfl, rfl, ?_, hc⟩
            rintro (h | h | h | h)
            · exact h1 (Or.inl h)
            · exact h1 (Or.inr h)
            · exact h2 (Or.inl h)
            · exact h2 (Or.inr h)
          · rintro ⟨mi, w0, hm', hw', hv, hc⟩
            exact hc

/-- C10: with the default CLI bounds `height = width = 0` and a
nonempty watermark, the resize stage produces the empty 0x0 buffer, the
composite loop runs zero iterations, and `AddWatermarkImage` succeeds
writing exactly the base image. -/
theorem C10_default_bounds_erase_watermark (env : Env)
    (mainPath wmPath outPath : String) (mainImg wm0 : PixelBuffer)
    (hm : ReadImage env mainPath = .ok mainImg)
    (hw : ReadImage env wmPath = .ok wm0)
    (hnz : 0 < wm0.width ∨ 0 < wm0.height)
    (hsave : saveEnvOk env outPath) :
    (AddWatermarkImage env mainPath wmPath outPath 0 0 0 0).2 = none ∧
      (AddWatermarkImage env mainPath wmPath outPath 0 0 0 0).1.written =
        some mainImg := by
  rw [AddWatermarkImage_reads_ok env mainPath wmPath outPath 0 0 0 0 mainImg wm0 hm hw]
  rw [if_neg (by omega), if_neg (by omega), if_pos (by omega)]
  rw [SaveImage_ok env _ outPath hsave]
  exact ⟨rfl, rfl⟩

/-- Witness for C10: in the all-successful environment, a 1x1 watermark
with 0x0 bounds leaves the base image unchanged and the run succeeds. -/
theorem C10_default_bounds_erase_watermark_witness :
    (AddWatermarkImage envAllOk "in.png" "wm.png" "out.png" 0 0 0 0).2 = none ∧
      (AddWatermarkImage envAllOk "in.png" "wm.png" "out.png" 0 0 0 0).1.written =
        some pix1 :=
  C10_default_bounds_erase_watermark envAllOk "in.png" "wm.png" "out.png" pix1 pix1
    rfl rfl (Or.inl (by decide)) ⟨rfl, rfl, by decide⟩

/-- C9 refutation on the downcasting decode path: on a valid GIF input
that `gif.Decode` accepts, `ReadImage` panics on the failed type
assertion instead of returning a buffer or one of the two declared
error outcomes. -/
theorem C9_downcast_panics :
    ReadImageCast envGif "wm.gif" = .panicked ∧
      ReadImageCast envGif "wm.gif" ≠ .err .unsupportedFormat ∧
      ReadImageCast envGif "wm.gif" ≠ .err .decodeError := by
  refine ⟨?_, ?_, ?_⟩ <;> decide

end WatermarkGen
